import Mathlib

/-!
Shallow embedding of the content-translation bridge of the
`content-source-starter` repository
(`src/example-content-source/example-source-utils.ts` and the
`ExampleContentSource` class), together with proofs settling the claims
about it.

JavaScript values that flow through the codec untyped are modelled by
`JsValue`; a thrown `Error` is modelled by `Except.error` carrying the
error message; a JavaScript object used as a string-keyed map is modelled
by an association list written in first-assignment order, with assignment
`jsSet` replacing an existing key in place.
-/

namespace ContentSourceStarter

/-- An untyped JavaScript value as it appears in native document fields. -/
inductive JsValue where
  | str (s : String)
  | num (n : Int)
  | boolean (b : Bool)
  | null
  | undefined
deriving DecidableEq, Repr

/-- The sixteen scalar field-type tags that both codec directions pass
through unchanged (the shared fall-through bodies of the switches at
`example-source-utils.ts:58-73` and `example-source-utils.ts:191-206`). -/
inductive ScalarTag where
  | string | url | slug | text | markdown | html | boolean | date
  | datetime | color | number | enum | file | json | style | richText
deriving DecidableEq, Repr

/-- The four composite field-type tags that both codec directions reject
(`example-source-utils.ts:93-96` and `example-source-utils.ts:211-214`). -/
inductive CompositeTag where
  | object | model | crossReference | list
deriving DecidableEq, Repr

/-- The string the source interpolates into error messages for each
composite tag. -/
def compositeTagName : CompositeTag → String
  | .object => "object"
  | .model => "model"
  | .crossReference => "cross-reference"
  | .list => "list"

/-- The type tag of a model field, as dispatched on by
`convertExampleDocumentsToStackbitDocuments`. -/
inductive FieldType where
  | scalar (t : ScalarTag)
  | image
  | reference
  | composite (c : CompositeTag)
deriving DecidableEq, Repr

/-- A field descriptor of a Stackbit model: a name and a type tag. -/
structure ModelField where
  name : String
  type : FieldType
deriving DecidableEq, Repr

/-- A Stackbit model as consumed from the host-supplied model map. The
`fields` list is optional in the `@stackbit/types` `Model` type, which is
why the source guards it with `model.fields?.find(...)`. -/
structure Model where
  name : String
  fields : Option (List ModelField)
deriving DecidableEq, Repr

/-- A native document of the example content store: id, type (model
name), status string, timestamps, and an untyped field map. -/
structure ExampleDocument where
  id : String
  type : String
  status : String
  createdAt : String
  updatedAt : String
  fields : List (String × JsValue)
deriving DecidableEq, Repr

/-- A native asset of the example content store. -/
structure ExampleAsset where
  id : String
  createdAt : String
  updatedAt : String
  title : String
  url : String
  width : Int
  height : Int
deriving DecidableEq, Repr

/-- Whether a reference field value points at an asset or a document. -/
inductive RefType where
  | asset
  | document
deriving DecidableEq, Repr

/-- A normalized document field value: a scalar with its type tag, or a
reference carrying the referenced id (the shapes built at
`example-source-utils.ts:74-91`). -/
inductive DocumentField where
  | scalar (t : ScalarTag) (value : JsValue)
  | reference (refType : RefType) (refId : JsValue)
deriving DecidableEq, Repr

/-- A normalized Stackbit document as built by
`convertExampleDocumentsToStackbitDocuments`. The literal
`type: 'document'` discriminator and the empty `context` payload are
constants in the source and are omitted here. -/
structure StackbitDocument where
  id : String
  modelName : String
  status : String
  manageUrl : String
  createdAt : String
  updatedAt : String
  fields : List (String × DocumentField)
deriving DecidableEq, Repr

/-- A normalized Stackbit asset as built by
`convertExampleAssetToStackbitAssets`. The fixed two-field shape
(`title` scalar and `file` descriptor with url and dimensions) is
flattened into the structure. -/
structure StackbitAsset where
  id : String
  createdAt : String
  updatedAt : String
  status : String
  manageUrl : String
  title : String
  fileUrl : String
  width : Int
  height : Int
deriving DecidableEq, Repr

/-- Lookup in a JavaScript object modelled as an association list
(`modelMap[key]`): the value at the key, or `none` (undefined). -/
def lookupJs {α : Type} : List (String × α) → String → Option α
  | [], _ => none
  | (k, v) :: rest, key => if k = key then some v else lookupJs rest key

/-- Assignment `obj[key] = value` on a JavaScript object modelled as an
association list: replaces an existing key in place, else appends. -/
def jsSet {α : Type} : List (String × α) → String → α → List (String × α)
  | [], key, value => [(key, value)]
  | (k, v) :: rest, key, value =>
    if k = key then (key, value) :: rest else (k, v) :: jsSet rest key value

/-- The per-field dispatch of `convertExampleDocumentsToStackbitDocuments`
(`example-source-utils.ts:57-101`): a scalar tag wraps the value with its
tag, `image` builds a reference-to-asset, `reference` builds a
reference-to-document, and a composite tag throws
`field of type ... not implemented`. -/
def convertExampleDocumentField (fieldType : FieldType) (fieldValue : JsValue) :
    Except String DocumentField :=
  match fieldType with
  | .scalar t => .ok (.scalar t fieldValue)
  | .image => .ok (.reference .asset fieldValue)
  | .reference => .ok (.reference .document fieldValue)
  | .composite c => .error ("field of type " ++ compositeTagName c ++ " not implemented")

/-- The `Object.entries(document.fields).reduce(...)` loop of
`convertExampleDocumentsToStackbitDocuments`
(`example-source-utils.ts:52-103`). The reducer body evaluates
`model.fields?.find(...)`: when the model itself is `undefined` (its type
was absent from the model map) this dereference throws a `TypeError`, but
only if the reducer body runs at all, i.e. only if the document has at
least one field entry. A field name with no matching model field is
skipped. -/
def convertDocumentFieldEntries (model : Option Model) :
    List (String × JsValue) → List (String × DocumentField) →
    Except String (List (String × DocumentField))
  | [], acc => .ok acc
  | (fieldName, fieldValue) :: rest, acc =>
    match model with
    | none => .error "TypeError: cannot read fields of undefined"
    | some m =>
      match m.fields.bind (fun fs => fs.find? (fun f => f.name = fieldName)) with
      | none => convertDocumentFieldEntries (some m) rest acc
      | some modelField =>
        match convertExampleDocumentField modelField.type fieldValue with
        | .error e => .error e
        | .ok df => convertDocumentFieldEntries (some m) rest (jsSet acc fieldName df)

/-- The body of the `documents.map` callback of
`convertExampleDocumentsToStackbitDocuments`
(`example-source-utils.ts:41-105`): looks the model up by the document
type, derives the status by the fixed three-way mapping at line 47,
builds the manage URL, and converts the field entries. -/
def convertExampleDocumentToStackbitDocument (document : ExampleDocument)
    (modelMap : List (String × Model)) (manageUrl : String) :
    Except String StackbitDocument :=
  match convertDocumentFieldEntries (lookupJs modelMap document.type) document.fields [] with
  | .error e => .error e
  | .ok flds =>
    .ok
      { id := document.id
        modelName := document.type
        status :=
          if document.status = "draft" then "added"
          else if document.status = "published" then "published"
          else "modified"
        manageUrl := manageUrl ++ "/document/" ++ document.id
        createdAt := document.createdAt
        updatedAt := document.updatedAt
        fields := flds }

/-- `convertExampleDocumentsToStackbitDocuments`
(`example-source-utils.ts:36-106`): maps the per-document conversion over
the list; an exception thrown for any document fails the whole call. -/
def convertExampleDocumentsToStackbitDocuments :
    List ExampleDocument → List (String × Model) → String →
    Except String (List StackbitDocument)
  | [], _, _ => .ok []
  | d :: rest, modelMap, manageUrl =>
    match convertExampleDocumentToStackbitDocument d modelMap manageUrl with
    | .error e => .error e
    | .ok d1 =>
      match convertExampleDocumentsToStackbitDocuments rest modelMap manageUrl with
      | .error e => .error e
      | .ok ds => .ok (d1 :: ds)

/-- The body of the `assets.map` callback of
`convertExampleAssetToStackbitAssets` (`example-source-utils.ts:108-134`):
total, status fixed at `published`, file URL prefixed with the site
localhost. -/
def convertExampleAssetToStackbitAsset (asset : ExampleAsset)
    (manageUrl : String) (siteLocalhost : String) : StackbitAsset :=
  { id := asset.id
    createdAt := asset.createdAt
    updatedAt := asset.updatedAt
    status := "published"
    manageUrl := manageUrl ++ "/assets/" ++ asset.id
    title := asset.title
    fileUrl := siteLocalhost ++ asset.url
    width := asset.width
    height := asset.height }

/-- `convertExampleAssetToStackbitAssets` (`example-source-utils.ts:108-134`). -/
def convertExampleAssetToStackbitAssets (assets : List ExampleAsset)
    (manageUrl : String) (siteLocalhost : String) : List StackbitAsset :=
  assets.map (fun a => convertExampleAssetToStackbitAsset a manageUrl siteLocalhost)

/-- An update-operation field, as dispatched on by
`convertUpdateOperationFieldToExampleDocumentField`
(`example-source-utils.ts:189-220`): a scalar tag carries its value, a
reference carries the target id, and `image` and the composite tags are
dispatched by tag alone (the source reads only `.type` in those branches,
so any payload an image update may carry is never inspected). -/
inductive UpdateOperationField where
  | scalar (t : ScalarTag) (value : JsValue)
  | reference (refId : String)
  | image (refId : String)
  | composite (c : CompositeTag)
deriving DecidableEq, Repr

/-- An update operation as dispatched on by
`convertUpdateOperationsToExampleDocumentFields`
(`example-source-utils.ts:144-187`): `set` carries a field path and a new
field value, `unset` carries a field path and the field's model
descriptor entry, and any other operation kind (carried here by its
`opType` name) is rejected. -/
inductive UpdateOperation where
  | set (fieldPath : List String) (field : UpdateOperationField)
  | unset (fieldPath : List String) (modelField : ModelField)
  | other (opType : String)
deriving DecidableEq, Repr

/-- `convertUpdateOperationFieldToExampleDocumentField`
(`example-source-utils.ts:189-220`): scalar tags return the value
unchanged, `reference` returns the target id, and `image` together with
the four composite tags throws `updating field of type ... not
implemented`. -/
def convertUpdateOperationFieldToExampleDocumentField
    (updateOperationField : UpdateOperationField) : Except String JsValue :=
  match updateOperationField with
  | .scalar _ value => .ok value
  | .reference refId => .ok (.str refId)
  | .image _ => .error "updating field of type image not implemented"
  | .composite c =>
    .error ("updating field of type " ++ compositeTagName c ++ " not implemented")

/-- The `for` loop of `convertUpdateOperationsToExampleDocumentFields`
(`example-source-utils.ts:146-185`) with the accumulated `fields` object
made explicit. A `set` writes the denormalized value at the key
`fieldPath[0]`; an `unset` on a scalar, image, or reference model field
writes `undefined` at `fieldPath[0]` and on a composite model field
throws; any other operation kind throws. `fieldPath[0]` on an empty path
is `undefined`, which JavaScript coerces to the object key
`"undefined"`. -/
def convertUpdateOperationsGo :
    List UpdateOperation → List (String × JsValue) →
    Except String (List (String × JsValue))
  | [], fields => .ok fields
  | .set fieldPath field :: rest, fields =>
    match convertUpdateOperationFieldToExampleDocumentField field with
    | .error e => .error e
    | .ok v => convertUpdateOperationsGo rest (jsSet fields (fieldPath.headD "undefined") v)
  | .unset fieldPath modelField :: rest, fields =>
    match modelField.type with
    | .composite c =>
      .error ("updating field of type " ++ compositeTagName c ++ " not implemented")
    | _ => convertUpdateOperationsGo rest (jsSet fields (fieldPath.headD "undefined") .undefined)
  | .other opType :: _, _ => .error (opType ++ " operation not implemented")

/-- `convertUpdateOperationsToExampleDocumentFields`
(`example-source-utils.ts:144-187`). -/
def convertUpdateOperationsToExampleDocumentFields
    (updateOperations : List UpdateOperation) : Except String (List (String × JsValue)) :=
  convertUpdateOperationsGo updateOperations []

/-- The `for` loop of `convertUpdateOperationFieldsToExampleDocumentFields`
(`example-source-utils.ts:136-142`): denormalizes every entry of a flat
field map. -/
def convertUpdateOperationFieldsGo :
    List (String × UpdateOperationField) → List (String × JsValue) →
    Except String (List (String × JsValue))
  | [], fields => .ok fields
  | (fieldName, f) :: rest, fields =>
    match convertUpdateOperationFieldToExampleDocumentField f with
    | .error e => .error e
    | .ok v => convertUpdateOperationFieldsGo rest (jsSet fields fieldName v)

/-- `convertUpdateOperationFieldsToExampleDocumentFields`
(`example-source-utils.ts:136-142`). -/
def convertUpdateOperationFieldsToExampleDocumentFields
    (updateOperationFields : List (String × UpdateOperationField)) :
    Except String (List (String × JsValue)) :=
  convertUpdateOperationFieldsGo updateOperationFields []

/-- `ExampleContentSource.hasAccess` (`example-source-utils.ts:587-608`):
the local-dev branch and the fall-through both return
`hasConnection: true, hasPermissions: true`; the user-context check is
commented out in the source. The pair is `(hasConnection, hasPermissions)`
and the user context (an empty interface) is modelled by `Unit`. -/
def hasAccess (localDev : Bool) (userContext : Option Unit) : Bool × Bool :=
  if localDev then (true, true) else (true, true)

/-- `ExampleContentSource.uploadAsset` (`example-source-utils.ts:693-714`),
parameterized by the store client's `uploadAsset` (url, title, width,
height, returning the stored native asset). The guard `!options.url` is
JavaScript falsiness: it throws both when `url` is absent and when it is
the empty string, and it never inspects `base64`. Otherwise the store
uploads with the fixed 100 by 100 dimensions and the file name as title,
and the native asset is normalized. -/
def uploadAsset (url : Option String) (base64 : Option String)
    (fileName : String) (mimeType : String)
    (apiUploadAsset : String → String → Int → Int → ExampleAsset)
    (manageUrl : String) (siteLocalhost : String) : Except String StackbitAsset :=
  match url with
  | none => .error "uploading assets from base64 is not supported"
  | some u =>
    if u = "" then .error "uploading assets from base64 is not supported"
    else .ok (convertExampleAssetToStackbitAsset (apiUploadAsset u fileName 100 100)
      manageUrl siteLocalhost)

/-- A native change event dispatched on by the observer callback of
`ExampleContentSource.startWatchingContentUpdates`
(`example-source-utils.ts:495-506`). The callback matches the event name
against the four handled kinds; `other` stands for any event name the
store client may deliver that matches none of them and so hits no
branch. -/
inductive ObsEvent where
  | documentCreated (document : ExampleDocument)
  | documentUpdated (document : ExampleDocument)
  | documentDeleted (documentId : String)
  | assetCreated (asset : ExampleAsset)
  | other (name : String)
deriving DecidableEq, Repr

/-- The normalized change-event batch assembled by the observer callback
(`example-source-utils.ts:489-494`). -/
structure ContentChangeEvent where
  documents : List StackbitDocument
  assets : List StackbitAsset
  deletedDocumentIds : List String
  deletedAssetIds : List String
deriving DecidableEq, Repr

/-- The `for` loop of the observer callback
(`example-source-utils.ts:495-506`): document created/updated events
translate the single document and append it, document-deleted appends the
id, asset-created translates and appends the asset, and any other event
kind falls through every branch. A conversion exception propagates out of
the callback. -/
def observerCallbackGo (modelMap : List (String × Model))
    (manageUrl : String) (siteLocalhost : String) :
    List ObsEvent → ContentChangeEvent → Except String ContentChangeEvent
  | [], contentChange => .ok contentChange
  | .documentCreated d :: rest, contentChange =>
    match convertExampleDocumentToStackbitDocument d modelMap manageUrl with
    | .error e => .error e
    | .ok d1 => observerCallbackGo modelMap manageUrl siteLocalhost rest
        { contentChange with documents := contentChange.documents ++ [d1] }
  | .documentUpdated d :: rest, contentChange =>
    match convertExampleDocumentToStackbitDocument d modelMap manageUrl with
    | .error e => .error e
    | .ok d1 => observerCallbackGo modelMap manageUrl siteLocalhost rest
        { contentChange with documents := contentChange.documents ++ [d1] }
  | .documentDeleted documentId :: rest, contentChange =>
    observerCallbackGo modelMap manageUrl siteLocalhost rest
      { contentChange with deletedDocumentIds := contentChange.deletedDocumentIds ++ [documentId] }
  | .assetCreated a :: rest, contentChange =>
    observerCallbackGo modelMap manageUrl siteLocalhost rest
      { contentChange with assets := contentChange.assets ++
          [convertExampleAssetToStackbitAsset a manageUrl siteLocalhost] }
  | .other _ :: rest, contentChange =>
    observerCallbackGo modelMap manageUrl siteLocalhost rest contentChange

/-- The observer callback registered by
`ExampleContentSource.startWatchingContentUpdates`
(`example-source-utils.ts:488-508`), starting from the empty batch. -/
def observerCallback (modelMap : List (String × Model))
    (manageUrl : String) (siteLocalhost : String) (events : List ObsEvent) :
    Except String ContentChangeEvent :=
  observerCallbackGo modelMap manageUrl siteLocalhost events
    { documents := [], assets := [], deletedDocumentIds := [], deletedAssetIds := [] }

/-- Whether a native event name matches one of the four branches of the
observer callback. -/
def eventHandled : ObsEvent → Bool
  | .other _ => false
  | _ => true

/-- A call the bridge makes on the store client's observation API,
recorded with the subscription handle it passes. -/
inductive ObsAction where
  | startObs (handle : Nat)
  | stopObs (handle : Nat)
deriving DecidableEq, Repr

/-- The observation-related state of an `ExampleContentSource` instance
together with the store client it drives: the instance's `observerId`
field (`example-source-utils.ts:286`, initially undefined), and the store
client side, which is modelled because `example-api-client.ts` is not
part of the translated sources. Modelled from the spec: the store client
exposes `startObservingContentChanges(callback) -> subscriptionHandle`
(a fresh handle, here drawn from `nextHandle`) and
`stopObservingContentChanges(handle)` which removes that handle from the
set of live subscriptions. Every call is also recorded in `trace`. -/
structure WatchState where
  observerId : Option Nat
  nextHandle : Nat
  live : List Nat
  trace : List ObsAction
deriving DecidableEq, Repr

/-- Modelled from the spec: `apiClient.stopObservingContentChanges`
(missing `example-api-client.ts`) unsubscribes the given handle. -/
def apiStopObservingContentChanges (s : WatchState) (handle : Nat) : WatchState :=
  { s with live := s.live.erase handle, trace := s.trace ++ [.stopObs handle] }

/-- Modelled from the spec: `apiClient.startObservingContentChanges`
(missing `example-api-client.ts`) subscribes and returns a fresh handle. -/
def apiStartObservingContentChanges (s : WatchState) : WatchState × Nat :=
  let s1 : WatchState :=
    { s with
      live := s.live ++ [s.nextHandle]
      nextHandle := s.nextHandle + 1
      trace := s.trace ++ [.startObs s.nextHandle] }
  (s1, s.nextHandle)

/-- `ExampleContentSource.stopWatchingContentUpdates`
(`example-source-utils.ts:520-526`): if `this.observerId` is set, call
the store client's unsubscribe with it. The source never clears
`this.observerId` afterwards. -/
def stopWatchingContentUpdates (s : WatchState) : WatchState :=
  match s.observerId with
  | none => s
  | some handle => apiStopObservingContentChanges s handle

/-- `ExampleContentSource.startWatchingContentUpdates`
(`example-source-utils.ts:477-510`): if `this.observerId` is set, first
call `stopWatchingContentUpdates`, then subscribe and store the new
handle in `this.observerId`. -/
def startWatchingContentUpdates (s : WatchState) : WatchState :=
  let s1 := if s.observerId.isSome then stopWatchingContentUpdates s else s
  let p := apiStartObservingContentChanges s1
  { p.1 with observerId := some p.2 }

/-- The state of a freshly constructed `ExampleContentSource`: no
observer id, no live subscription, no calls made. -/
def initWatchState : WatchState :=
  { observerId := none, nextHandle := 0, live := [], trace := [] }

/-- Runs a sequence of watching calls (`true` for
`startWatchingContentUpdates`, `false` for `stopWatchingContentUpdates`)
from a given state. -/
def runWatch : List Bool → WatchState → WatchState
  | [], s => s
  | b :: rest, s =>
    runWatch rest (if b then startWatchingContentUpdates s else stopWatchingContentUpdates s)

/-- A sample native document of a type with one field, used as concrete
input. -/
def postDocWithField : ExampleDocument :=
  { id := "p1", type := "post", status := "draft", createdAt := "c1", updatedAt := "u1",
    fields := [("title", .str "Hi")] }

/-- A sample native document with an empty field map, used as concrete
input. -/
def postDocNoFields : ExampleDocument :=
  { id := "p2", type := "post", status := "published", createdAt := "c2", updatedAt := "u2",
    fields := [] }

/-- A sample store-client upload function used as concrete input: stores
the uploaded asset under a fixed id with the requested url, title, and
dimensions. -/
def sampleApiUploadAsset : String → String → Int → Int → ExampleAsset :=
  fun u t w h =>
    { id := "a1", createdAt := "c1", updatedAt := "u1", title := t, url := u,
      width := w, height := h }

/-- C1: the claim as frozen is false on the code: a native document whose
type has no entry in the model map and that has at least one field entry
makes `convertExampleDocumentsToStackbitDocuments` fail, because the
reducer dereferences the undefined model (`model.fields?.find` guards
only `fields`, not `model`). -/
theorem claim_c1_counterexample :
    convertExampleDocumentsToStackbitDocuments [postDocWithField] []
      "https://example.com/project/example"
      = .error "TypeError: cannot read fields of undefined" := rfl

/-- C1 (amended): for a native document whose type has no entry in the
model map, the call returns a normalized document with an empty field map
only when the document's native field map is empty; when the document has
at least one native field, the call fails with a TypeError from reading
the missing model's fields. -/
theorem claim_c1 :
    ∀ (document : ExampleDocument) (modelMap : List (String × Model)) (url : String),
    lookupJs modelMap document.type = none →
    (document.fields = [] →
      convertExampleDocumentsToStackbitDocuments [document] modelMap url =
        .ok [{ id := document.id
               modelName := document.type
               status :=
                 if document.status = "draft" then "added"
                 else if document.status = "published" then "published"
                 else "modified"
               manageUrl := url ++ "/document/" ++ document.id
               createdAt := document.createdAt
               updatedAt := document.updatedAt
               fields := [] }])
    ∧ (document.fields ≠ [] →
      convertExampleDocumentsToStackbitDocuments [document] modelMap url =
        .error "TypeError: cannot read fields of undefined") := by
  intro document modelMap url h
  constructor
  · intro hf
    simp [convertExampleDocumentsToStackbitDocuments,
      convertExampleDocumentToStackbitDocument, h, hf, convertDocumentFieldEntries]
  · intro hf
    cases hfe : document.fields with
    | nil => exact absurd hfe hf
    | cons e rest =>
      obtain ⟨n, v⟩ := e
      simp [convertExampleDocumentsToStackbitDocuments,
        convertExampleDocumentToStackbitDocument, h, hfe, convertDocumentFieldEntries]

/-- C1 witness: both branches of the amended claim at concrete inputs. -/
theorem claim_c1_witness :
    convertExampleDocumentsToStackbitDocuments [postDocNoFields] [] "m" =
      .ok [{ id := "p2", modelName := "post", status := "published",
             manageUrl := "m/document/p2", createdAt := "c2", updatedAt := "u2",
             fields := [] }]
    ∧ convertExampleDocumentsToStackbitDocuments [postDocWithField] [] "m" =
      .error "TypeError: cannot read fields of undefined" :=
  ⟨(claim_c1 postDocNoFields [] "m" rfl).1 rfl,
   (claim_c1 postDocWithField [] "m" rfl).2 (by decide)⟩

/-- C2: the claim as frozen is false on the code: denormalizing an
update-operation field whose type tag is `image` throws rather than
returning the target asset id. -/
theorem claim_c2_counterexample :
    convertUpdateOperationFieldToExampleDocumentField (.image "asset-1") =
      .error "updating field of type image not implemented" := rfl

/-- C2 (amended): denormalizing an update-operation field whose type tag
is `image` fails with an error naming the image tag; the target id is
returned as the native value for `reference`-tagged update fields. -/
theorem claim_c2 :
    ∀ refId : String,
    convertUpdateOperationFieldToExampleDocumentField (.image refId) =
      .error "updating field of type image not implemented"
    ∧ convertUpdateOperationFieldToExampleDocumentField (.reference refId) =
      .ok (.str refId) :=
  fun _ => ⟨rfl, rfl⟩

/-- C4: for every scalar type tag and value, normalizing wraps the value
unchanged, denormalizing returns the value unchanged, and denormalizing a
normalized scalar then normalizing again is the identity. -/
theorem claim_c4 :
    ∀ (t : ScalarTag) (v : JsValue),
    convertExampleDocumentField (.scalar t) v = .ok (.scalar t v)
    ∧ convertUpdateOperationFieldToExampleDocumentField (.scalar t v) = .ok v
    ∧ (convertUpdateOperationFieldToExampleDocumentField (.scalar t v)).bind
        (fun nv => convertExampleDocumentField (.scalar t) nv) = .ok (.scalar t v) :=
  fun _ _ => ⟨rfl, rfl, rfl⟩

/-- C5: whenever document translation succeeds, the normalized status is
the fixed three-way mapping of the native status: draft to added,
published to published, anything else to modified. -/
theorem claim_c5 :
    ∀ (document : ExampleDocument) (modelMap : List (String × Model)) (url : String)
      (d : StackbitDocument),
    convertExampleDocumentToStackbitDocument document modelMap url = .ok d →
    d.status =
      (if document.status = "draft" then "added"
       else if document.status = "published" then "published"
       else "modified") := by
  intro document modelMap url d h
  unfold convertExampleDocumentToStackbitDocument at h
  cases h1 : convertDocumentFieldEntries (lookupJs modelMap document.type) document.fields []
    with
  | error e => rw [h1] at h; exact absurd h (by simp)
  | ok flds => rw [h1] at h; cases h; rfl

/-- C5 witness: the status mapping at a concrete document. -/
theorem claim_c5_witness :
    (StackbitDocument.status
      { id := "p2", modelName := "post", status := "published",
        manageUrl := "m/document/p2", createdAt := "c2", updatedAt := "u2",
        fields := [] }) =
    (if postDocNoFields.status = "draft" then "added"
     else if postDocNoFields.status = "published" then "published"
     else "modified") :=
  claim_c5 postDocNoFields [] "m"
    { id := "p2", modelName := "post", status := "published",
      manageUrl := "m/document/p2", createdAt := "c2", updatedAt := "u2",
      fields := [] } rfl

/-- C7: for each composite type tag, document translation fails when a
model field of that type is encountered, and denormalizing an
update-operation field of that type fails, each with an error naming the
tag. -/
theorem claim_c7 :
    ∀ (c : CompositeTag) (fieldName mname id st ca ua url : String) (v : JsValue),
    convertExampleDocumentsToStackbitDocuments
      [{ id := id, type := mname, status := st, createdAt := ca, updatedAt := ua,
         fields := [(fieldName, v)] }]
      [(mname, { name := mname,
                 fields := some [{ name := fieldName, type := .composite c }] })] url
      = .error ("field of type " ++ compositeTagName c ++ " not implemented")
    ∧ convertUpdateOperationFieldToExampleDocumentField (.composite c) =
      .error ("updating field of type " ++ compositeTagName c ++ " not implemented") := by
  intro c fieldName mname id st ca ua url v
  refine ⟨?_, rfl⟩
  simp [convertExampleDocumentsToStackbitDocuments,
    convertExampleDocumentToStackbitDocument, convertDocumentFieldEntries, lookupJs,
    List.find?, convertExampleDocumentField]

/-- C8: uploading an asset fails with the unsupported-upload error
exactly when no source URL is given (absent or empty, per the JavaScript
falsiness check), regardless of any base64 payload; with a source URL it
uploads through the store client and returns the normalized asset. -/
theorem claim_c8 :
    ∀ (url base64 : Option String) (fileName mimeType : String)
      (api : String → String → Int → Int → ExampleAsset) (mu sl : String),
    ((url = none ∨ url = some "") →
      uploadAsset url base64 fileName mimeType api mu sl =
        .error "uploading assets from base64 is not supported")
    ∧ (∀ u, url = some u → u ≠ "" →
      uploadAsset url base64 fileName mimeType api mu sl =
        .ok (convertExampleAssetToStackbitAsset (api u fileName 100 100) mu sl))
    ∧ (∀ b2, uploadAsset url base64 fileName mimeType api mu sl =
        uploadAsset url b2 fileName mimeType api mu sl) := by
  intro url base64 fileName mimeType api mu sl
  refine ⟨?_, ?_, ?_⟩
  · rintro (rfl | rfl)
    · rfl
    · simp [uploadAsset]
  · rintro u rfl hne
    simp [uploadAsset, hne]
  · intro b2
    rfl

/-- C8 witness: the error branch and the success branch at concrete
inputs. -/
theorem claim_c8_witness :
    uploadAsset none (some "Zg==") "f.png" "image/png" sampleApiUploadAsset "m" "s" =
      .error "uploading assets from base64 is not supported"
    ∧ uploadAsset (some "/img.png") none "f.png" "image/png" sampleApiUploadAsset "m" "s" =
      .ok (convertExampleAssetToStackbitAsset
        (sampleApiUploadAsset "/img.png" "f.png" 100 100) "m" "s") :=
  ⟨(claim_c8 none (some "Zg==") "f.png" "image/png" sampleApiUploadAsset "m" "s").1
    (Or.inl rfl),
   (claim_c8 (some "/img.png") none "f.png" "image/png" sampleApiUploadAsset "m" "s").2.1
    "/img.png" rfl (by decide)⟩

/-- C9: the capability probe returns connection and permission both true
for every input, with or without a user context and in both local-dev and
non-local-dev mode. -/
theorem claim_c9 :
    ∀ (localDev : Bool) (userContext : Option Unit),
    hasAccess localDev userContext = (true, true) := by
  intro localDev userContext
  cases localDev <;> rfl

/-- Writing the same key twice leaves only the later value (JavaScript
object assignment). -/
theorem jsSet_jsSet {α : Type} (m : List (String × α)) (k : String) (v1 v2 : α) :
    jsSet (jsSet m k v1) k v2 = jsSet m k v2 := by
  induction m with
  | nil => simp [jsSet]
  | cons e rest ih =>
    obtain ⟨k1, w⟩ := e
    by_cases h : k1 = k <;> simp [jsSet, h, ih]

/-- The update-operation loop splits over list append. -/
theorem convertUpdateOperationsGo_append (l1 l2 : List UpdateOperation) :
    ∀ acc, convertUpdateOperationsGo (l1 ++ l2) acc =
      (convertUpdateOperationsGo l1 acc).bind (convertUpdateOperationsGo l2) := by
  induction l1 with
  | nil => intro acc; simp [convertUpdateOperationsGo, Except.bind]
  | cons op rest ih =>
    intro acc
    cases op with
    | set p f =>
      cases hf : convertUpdateOperationFieldToExampleDocumentField f with
      | error e => simp [convertUpdateOperationsGo, hf, Except.bind]
      | ok v => simp [convertUpdateOperationsGo, hf, ih]
    | unset p mf =>
      cases hmf : mf.type with
      | composite c => simp [convertUpdateOperationsGo, hmf, Except.bind]
      | scalar t => simp [convertUpdateOperationsGo, hmf, ih]
      | image => simp [convertUpdateOperationsGo, hmf, ih]
      | reference => simp [convertUpdateOperationsGo, hmf, ih]
    | other o => simp [convertUpdateOperationsGo, Except.bind]

/-- Two consecutive set operations on paths with the same first segment
collapse to the later one, provided the earlier value denormalizes. -/
theorem convertUpdateOperationsGo_set_set (p1 p2 : List String)
    (f1 f2 : UpdateOperationField) (v1 : JsValue)
    (h : p1.headD "undefined" = p2.headD "undefined")
    (hf : convertUpdateOperationFieldToExampleDocumentField f1 = .ok v1)
    (acc : List (String × JsValue)) :
    convertUpdateOperationsGo [.set p1 f1, .set p2 f2] acc =
      convertUpdateOperationsGo [.set p2 f2] acc := by
  cases hf2 : convertUpdateOperationFieldToExampleDocumentField f2 with
  | error e => simp [convertUpdateOperationsGo, hf, hf2]
  | ok v2 =>
    have h2 : p1.head?.getD "undefined" = p2.head?.getD "undefined" := by
      cases p1 <;> cases p2 <;> simpa using h
    simp [convertUpdateOperationsGo, hf, hf2, h2, jsSet_jsSet]

/-- C6: operations are applied in order; of two set operations whose
field paths share the same first segment the later one wins, and only the
first path segment determines the native key (the paths may differ in
deeper segments). -/
theorem claim_c6 :
    ∀ (ops1 : List UpdateOperation) (p1 p2 : List String)
      (f1 f2 : UpdateOperationField) (v1 : JsValue),
    p1.headD "undefined" = p2.headD "undefined" →
    convertUpdateOperationFieldToExampleDocumentField f1 = .ok v1 →
    convertUpdateOperationsToExampleDocumentFields (ops1 ++ [.set p1 f1, .set p2 f2]) =
      convertUpdateOperationsToExampleDocumentFields (ops1 ++ [.set p2 f2]) := by
  intro ops1 p1 p2 f1 f2 v1 h hf
  unfold convertUpdateOperationsToExampleDocumentFields
  rw [convertUpdateOperationsGo_append, convertUpdateOperationsGo_append]
  cases convertUpdateOperationsGo ops1 [] with
  | error e => rfl
  | ok acc =>
    simp only [Except.bind]
    exact convertUpdateOperationsGo_set_set p1 p2 f1 f2 v1 h hf acc

/-- C6 witness: a set on a deep path under `title` followed by a set on
`title` itself equals the later set alone. -/
theorem claim_c6_witness :
    convertUpdateOperationsToExampleDocumentFields
      [.set ["title", "deep"] (.scalar .string (.str "a")),
       .set ["title"] (.scalar .string (.str "b"))] =
    convertUpdateOperationsToExampleDocumentFields
      [.set ["title"] (.scalar .string (.str "b"))] :=
  claim_c6 [] ["title", "deep"] ["title"] (.scalar .string (.str "a"))
    (.scalar .string (.str "b")) (.str "a") rfl rfl

/-- The observer loop never changes the deleted-asset-id list it was
started with. -/
theorem observerCallbackGo_deletedAssetIds (modelMap : List (String × Model))
    (mu sl : String) :
    ∀ (events : List ObsEvent) (acc cc : ContentChangeEvent),
    observerCallbackGo modelMap mu sl events acc = .ok cc →
    cc.deletedAssetIds = acc.deletedAssetIds := by
  intro events
  induction events with
  | nil => intro acc cc h; cases h; rfl
  | cons e rest ih =>
    intro acc cc h
    cases e with
    | documentCreated d =>
      cases hd : convertExampleDocumentToStackbitDocument d modelMap mu with
      | error e1 => rw [observerCallbackGo, hd] at h; exact absurd h (by simp)
      | ok d1 =>
        simp only [observerCallbackGo, hd] at h
        exact ih { acc with documents := acc.documents ++ [d1] } cc h
    | documentUpdated d =>
      cases hd : convertExampleDocumentToStackbitDocument d modelMap mu with
      | error e1 => rw [observerCallbackGo, hd] at h; exact absurd h (by simp)
      | ok d1 =>
        simp only [observerCallbackGo, hd] at h
        exact ih { acc with documents := acc.documents ++ [d1] } cc h
    | documentDeleted documentId =>
      rw [observerCallbackGo] at h
      exact ih { acc with deletedDocumentIds := acc.deletedDocumentIds ++ [documentId] } cc h
    | assetCreated a =>
      rw [observerCallbackGo] at h
      exact ih { acc with assets := acc.assets ++
        [convertExampleAssetToStackbitAsset a mu sl] } cc h
    | other n => rw [observerCallbackGo] at h; exact ih acc cc h

/-- Dropping the events that match no branch of the observer loop does
not change its result. -/
theorem observerCallbackGo_filter (modelMap : List (String × Model)) (mu sl : String) :
    ∀ (events : List ObsEvent) (acc : ContentChangeEvent),
    observerCallbackGo modelMap mu sl (events.filter eventHandled) acc =
      observerCallbackGo modelMap mu sl events acc := by
  intro events
  induction events with
  | nil => intro acc; rfl
  | cons e rest ih =>
    intro acc
    cases e with
    | documentCreated d =>
      simp only [List.filter, eventHandled, observerCallbackGo]
      cases hd : convertExampleDocumentToStackbitDocument d modelMap mu with
      | error e1 => rfl
      | ok d1 => exact ih _
    | documentUpdated d =>
      simp only [List.filter, eventHandled, observerCallbackGo]
      cases hd : convertExampleDocumentToStackbitDocument d modelMap mu with
      | error e1 => rfl
      | ok d1 => exact ih _
    | documentDeleted documentId =>
      simp only [List.filter, eventHandled, observerCallbackGo]
      exact ih _
    | assetCreated a =>
      simp only [List.filter, eventHandled, observerCallbackGo]
      exact ih _
    | other n =>
      simp only [List.filter, eventHandled, observerCallbackGo]
      exact ih _

/-- C10: every change-event batch the observer callback returns has an
empty deleted-asset-id list, and the native events matching none of the
four handled kinds contribute nothing to the batch. -/
theorem claim_c10 :
    ∀ (modelMap : List (String × Model)) (mu sl : String)
      (events : List ObsEvent) (cc : ContentChangeEvent),
    (observerCallback modelMap mu sl events = .ok cc → cc.deletedAssetIds = [])
    ∧ observerCallback modelMap mu sl (events.filter eventHandled) =
        observerCallback modelMap mu sl events := by
  intro modelMap mu sl events cc
  constructor
  · intro h
    exact observerCallbackGo_deletedAssetIds modelMap mu sl events _ cc h
  · exact observerCallbackGo_filter modelMap mu sl events _

/-- C10 witness: a concrete batch with a deletion and an unrecognized
event has empty deleted-asset ids. -/
theorem claim_c10_witness :
    ContentChangeEvent.deletedAssetIds
      { documents := [], assets := [], deletedDocumentIds := ["d1"],
        deletedAssetIds := [] } = [] :=
  (claim_c10 [] "m" "s" [.documentDeleted "d1", .other "x"]
    { documents := [], assets := [], deletedDocumentIds := ["d1"],
      deletedAssetIds := [] }).1 rfl

/-- The invariant of the watching state machine: at most one live
subscription, and every live handle is the stored one. -/
def WatchInv (s : WatchState) : Prop :=
  s.live.length ≤ 1 ∧ ∀ h ∈ s.live, s.observerId = some h

/-- The fresh instance satisfies the invariant. -/
theorem watchInv_init : WatchInv initWatchState := by
  constructor <;> simp [initWatchState]

/-- Stopping preserves the invariant. -/
theorem watchInv_stop (s : WatchState) (hs : WatchInv s) :
    WatchInv (stopWatchingContentUpdates s) := by
  obtain ⟨h1, h2⟩ := hs
  cases ho : s.observerId with
  | none => simpa [stopWatchingContentUpdates, ho] using ⟨h1, h2⟩
  | some k =>
    simp only [stopWatchingContentUpdates, ho, apiStopObservingContentChanges]
    constructor
    · exact le_trans (List.erase_sublist k s.live).length_le h1
    · intro hd hm
      exact ho ▸ h2 hd (List.mem_of_mem_erase hm)

/-- Under the invariant, stopping when a handle is stored (or having none
stored) leaves no live subscription. -/
theorem watchInv_live_nil (s : WatchState) (hs : WatchInv s) :
    (if s.observerId.isSome then stopWatchingContentUpdates s else s).live = [] := by
  obtain ⟨h1, h2⟩ := hs
  cases ho : s.observerId with
  | none =>
    simp only [ho, Option.isSome_none, Bool.false_eq_true, if_false]
    cases hl : s.live with
    | nil => rfl
    | cons a rest =>
      have := h2 a (by rw [hl]; exact List.mem_cons_self a rest)
      rw [ho] at this
      cases this
  | some k =>
    simp only [ho, Option.isSome_some, if_true, stopWatchingContentUpdates,
      apiStopObservingContentChanges]
    cases hl : s.live with
    | nil => rfl
    | cons a rest =>
      have ha : a = k := by
        have := h2 a (by rw [hl]; exact List.mem_cons_self a rest)
        rw [ho] at this
        exact (Option.some_inj.mp this).symm
      have hrest : rest = [] := by
        have : (a :: rest).length ≤ 1 := hl ▸ h1
        simp at this
        exact this
      subst ha
      subst hrest
      simp [List.erase_cons_head]

/-- Starting preserves the invariant. -/
theorem watchInv_start (s : WatchState) (hs : WatchInv s) :
    WatchInv (startWatchingContentUpdates s) := by
  have hnil := watchInv_live_nil s hs
  unfold startWatchingContentUpdates apiStartObservingContentChanges
  constructor
  · simp [hnil]
  · intro hd hm
    simp [hnil] at hm
    simp [hm]

/-- Any sequence of watching calls preserves the invariant. -/
theorem watchInv_run : ∀ (bs : List Bool) (s : WatchState),
    WatchInv s → WatchInv (runWatch bs s) := by
  intro bs
  induction bs with
  | nil => intro s hs; exact hs
  | cons b rest ih =>
    intro s hs
    cases b with
    | true => exact ih _ (watchInv_start s hs)
    | false => exact ih _ (watchInv_stop s hs)

/-- C3: the claim as frozen is false on the code: after start and stop, a
second stop call performs the unsubscribe action again (the stored handle
is never cleared), so its action trace is not the same as after a single
stop. -/
theorem claim_c3_counterexample :
    (stopWatchingContentUpdates (stopWatchingContentUpdates
      (startWatchingContentUpdates initWatchState))).trace ≠
    (stopWatchingContentUpdates (startWatchingContentUpdates initWatchState)).trace := by
  decide

/-- C3 (amended): stopping is a no-op only when no subscription was ever
started (no stored handle); once a handle is stored, every stop call,
including a repeated one, performs the unsubscribe action again with that
handle, because the handle is never cleared. Starting while already
watching first stops the existing subscription, and after any sequence of
start and stop calls at most one live subscription exists. -/
theorem claim_c3 :
    (∀ s : WatchState, s.observerId = none → stopWatchingContentUpdates s = s)
    ∧ (∀ (s : WatchState) (h : Nat), s.observerId = some h →
        (stopWatchingContentUpdates s).trace = s.trace ++ [ObsAction.stopObs h])
    ∧ (∀ bs : List Bool, (runWatch bs initWatchState).live.length ≤ 1) := by
  refine ⟨?_, ?_, ?_⟩
  · intro s h
    simp [stopWatchingContentUpdates, h]
  · intro s h hh
    simp [stopWatchingContentUpdates, hh, apiStopObservingContentChanges]
  · intro bs
    exact (watchInv_run bs initWatchState watchInv_init).1

/-- C3 witness: the no-op branch, the repeated-unsubscribe trace, and the
live-subscription bound at concrete inputs. -/
theorem claim_c3_witness :
    stopWatchingContentUpdates initWatchState = initWatchState
    ∧ (stopWatchingContentUpdates (startWatchingContentUpdates initWatchState)).trace =
      (startWatchingContentUpdates initWatchState).trace ++ [ObsAction.stopObs 0]
    ∧ (runWatch [true, false, false, true] initWatchState).live.length ≤ 1 :=
  ⟨claim_c3.1 initWatchState rfl,
   claim_c3.2.1 (startWatchingContentUpdates initWatchState) 0 rfl,
   claim_c3.2.2 [true, false, false, true]⟩

end ContentSourceStarter
